import Mathlib

/-!
Verification of the local-first note synchronization core of the
react-native notes application: the notes service (src/services/notesService),
the storage layer (src/services/storageService) and the social service
(src/services/socialService).

Modelling conventions:
* Timestamps are ISO-8601 strings produced from a Date in the source; the map
  from epoch milliseconds to such strings is strictly monotone, so timestamps
  are modelled as `Nat` (epoch milliseconds) and `new Date().toISOString()`
  becomes an explicit `now : Nat` parameter.
* Connectivity (`networkService.isOnline()`) is a `Bool` parameter.
* The persistent key-value store holds one notes-collection blob and one
  offline-operations blob; together they form the `AppState` record, and the
  asynchronous storage accessors become pure functions on `AppState`.
* Remote HTTP calls are modelled by an explicit parameter carrying the
  response: `Option` of the decoded value, `none` meaning the request threw.
* Generated identifiers (`note_${Date.now()}_${Math.random()}`,
  `offline_${Date.now()}_${Math.random()}`) are passed in as `String`
  parameters.
* The optional media fields of a note (location, images, voiceMemo, tags,
  richContent) are never read or written by the functions under study and are
  omitted from the record.
-/

namespace NotesApp

/-- The `Note` entity of src/types (media fields omitted, see header). -/
structure Note where
  id : String
  title : String
  content : String
  category : String
  isFavorite : Bool
  isPublic : Bool
  createdAt : Nat
  updatedAt : Nat
  userId : String
  likes : Nat
  likedBy : List String
deriving DecidableEq

/-- `Partial<Note>`: every field optional, mirroring a JS object that may
contain any subset of the `Note` keys. -/
structure PartialNote where
  id : Option String
  title : Option String
  content : Option String
  category : Option String
  isFavorite : Option Bool
  isPublic : Option Bool
  createdAt : Option Nat
  updatedAt : Option Nat
  userId : Option String
  likes : Option Nat
  likedBy : Option (List String)
deriving DecidableEq

/-- The empty partial update (a JS object with no keys). -/
def PartialNote.empty : PartialNote :=
  ⟨none, none, none, none, none, none, none, none, none, none, none⟩

/-- `Omit<Note, id | createdAt | updatedAt | userId>`: the argument of
`createNote`. -/
structure NoteData where
  title : String
  content : String
  category : String
  isFavorite : Bool
  isPublic : Bool
  likes : Nat
  likedBy : List String
deriving DecidableEq

/-- A `NoteData` object viewed at type `Partial<Note>` (this is how
`createNote` stores its argument in the offline-operation record). -/
def NoteData.toPartial (d : NoteData) : PartialNote :=
  ⟨none, some d.title, some d.content, some d.category, some d.isFavorite,
   some d.isPublic, none, none, none, some d.likes, some d.likedBy⟩

/-- The operation kind of an offline operation: CREATE, UPDATE or DELETE. -/
inductive OpKind where
  | CREATE
  | UPDATE
  | DELETE
deriving DecidableEq

/-- The `OfflineOperation` entity of src/types. The `data` field has TS type
`Partial<Note>`. The `kind` field is named `type` in the source. -/
structure OfflineOperation where
  id : String
  kind : OpKind
  data : PartialNote
  timestamp : Nat
deriving DecidableEq

/-- The durable state the services act on: the cached notes collection
(NOTES_CACHE key) and the offline-operations queue (OFFLINE_OPERATIONS key). -/
structure AppState where
  cache : List Note
  queue : List OfflineOperation
deriving DecidableEq

/-! ## Storage layer (src/services/storageService) -/

/-- `StorageService.getCachedNotes`: the cached collection (empty if never
populated). -/
def getCachedNotes (s : AppState) : List Note :=
  s.cache

/-- `StorageService.cacheNotes`: a single serialized write that REPLACES the
entire cached collection. -/
def cacheNotes (notes : List Note) (s : AppState) : AppState :=
  { s with cache := notes }

/-- `StorageService.getOfflineOperations`. -/
def getOfflineOperations (s : AppState) : List OfflineOperation :=
  s.queue

/-- `StorageService.addOfflineOperation`: reads the queue, pushes the
operation, writes the queue back (an append). -/
def addOfflineOperation (op : OfflineOperation) (s : AppState) : AppState :=
  { s with queue := s.queue ++ [op] }

/-- `StorageService.removeOfflineOperation`: keeps the operations whose id
differs from the given one (`operations.filter(op => op.id !== operationId)`). -/
def removeOfflineOperation (operationId : String) (s : AppState) : AppState :=
  { s with queue := s.queue.filter (fun op => op.id != operationId) }

/-! ## Notes service (src/services/notesService) -/

/-- `NotesService.getNotes`. Reads the cache first; only when online AND the
cache is empty does it fetch from the API, cache the result and return it.
`fetchResult` is the remote response of `fetchNotesFromAPI` (`none` = the
fetch threw; the catch block then falls back to the cached notes). -/
def getNotes (online : Bool) (fetchResult : Option (List Note))
    (s : AppState) : List Note × AppState :=
  let cachedNotes := getCachedNotes s
  if online && (cachedNotes.length == 0) then
    match fetchResult with
    | some apiNotes => (apiNotes, cacheNotes apiNotes s)
    | none => (getCachedNotes s, s)
  else
    (cachedNotes, s)

/-- The result record of `getNotesPaginated`. -/
structure PaginatedResult where
  notes : List Note
  hasMore : Bool
  total : Nat
deriving DecidableEq

/-- The cache-slicing branch of `NotesService.getNotesPaginated` (used both
when offline and in the catch-block fallback):
`startIndex = (page-1)*limit`, `endIndex = startIndex + limit`,
`notes = cachedNotes.slice(startIndex, endIndex)`,
`hasMore = endIndex < cachedNotes.length`, `total = cachedNotes.length`.
Page numbers are 1-based per the service contract, so the Nat subtraction
`page - 1` agrees with the source arithmetic. -/
def paginateCache (page limit : Nat) (cachedNotes : List Note) :
    PaginatedResult :=
  let startIndex := (page - 1) * limit
  let endIndex := startIndex + limit
  let paginatedNotes := (cachedNotes.drop startIndex).take limit
  ⟨paginatedNotes, decide (endIndex < cachedNotes.length), cachedNotes.length⟩

/-- `NotesService.getNotesPaginated`. Online: fetches a page from the API and
writes THAT PAGE into the cache via `cacheNotes` (`remote = none` models the
fetch throwing, in which case the catch block slices the cache). Offline:
slices the cache. -/
def getNotesPaginated (online : Bool) (remote : Option PaginatedResult)
    (page limit : Nat) (s : AppState) : PaginatedResult × AppState :=
  if online then
    match remote with
    | some result => (result, cacheNotes result.notes s)
    | none => (paginateCache page limit (getCachedNotes s), s)
  else
    (paginateCache page limit (getCachedNotes s), s)

/-- The body of `NotesService.addNoteToCache` on the cached list: replace the
first entry with the same id if one exists (`findIndex` + assignment),
otherwise push at the end. -/
def upsertById (note : Note) : List Note → List Note
  | [] => [note]
  | n :: rest =>
    if n.id == note.id then note :: rest else n :: upsertById note rest

/-- `NotesService.addNoteToCache` on the state. -/
def addNoteToCache (note : Note) (s : AppState) : AppState :=
  cacheNotes (upsertById note (getCachedNotes s)) s

/-- `NotesService.createNote`. Builds the new note from the supplied fields
with both timestamps set to now and the current user id, adds it to the cache,
and — ONLY IF ONLINE — appends a CREATE offline operation whose data is the
supplied `noteData` and whose timestamp is `Date.now()`. Returns the new
note. -/
def createNote (online : Bool) (noteData : NoteData) (noteId opId : String)
    (now : Nat) (userId : String) (s : AppState) : Note × AppState :=
  let newNote : Note :=
    ⟨noteId, noteData.title, noteData.content, noteData.category,
     noteData.isFavorite, noteData.isPublic, now, now, userId,
     noteData.likes, noteData.likedBy⟩
  let s1 := addNoteToCache newNote s
  let s2 :=
    if online then
      addOfflineOperation ⟨opId, OpKind.CREATE, noteData.toPartial, now⟩ s1
    else
      s1
  (newNote, s2)

/-- The object spread `{...note, ...updates, updatedAt: now}` performed by the
offline branch of `updateNote`: every field present in `updates` overrides the
cached value, and `updatedAt` is then overwritten with the mutation time. -/
def mergeUpdates (note : Note) (updates : PartialNote) (now : Nat) : Note :=
  ⟨updates.id.getD note.id, updates.title.getD note.title,
   updates.content.getD note.content, updates.category.getD note.category,
   updates.isFavorite.getD note.isFavorite,
   updates.isPublic.getD note.isPublic,
   updates.createdAt.getD note.createdAt, now,
   updates.userId.getD note.userId, updates.likes.getD note.likes,
   updates.likedBy.getD note.likedBy⟩

/-- The cache edit of the offline branch of `updateNote`: find the first note
with the given id (`findIndex`), merge the updates into it in place, and
return the merged note together with the new list; `none` when no note
matches (`noteIndex === -1`). -/
def updateFirstById (id : String) (updates : PartialNote) (now : Nat) :
    List Note → Option (Note × List Note)
  | [] => none
  | note :: rest =>
    if note.id == id then
      let merged := mergeUpdates note updates now
      some (merged, merged :: rest)
    else
      match updateFirstById id updates now rest with
      | some (merged, rest1) => some (merged, note :: rest1)
      | none => none

/-- The data payload `{ id, ...updates }` of an UPDATE offline operation: the
target id, overridden by `updates.id` when that key is present. -/
def updatePayload (id : String) (updates : PartialNote) : PartialNote :=
  { updates with id := some (updates.id.getD id) }

/-- The body of `NotesService.updateNoteInCache` on the cached list: replace
the first note with the same id, leave the list unchanged when none matches. -/
def replaceById (updatedNote : Note) : List Note → List Note
  | [] => []
  | note :: rest =>
    if note.id == updatedNote.id then updatedNote :: rest
    else note :: replaceById updatedNote rest

/-- `NotesService.updateNoteInCache` on the state. -/
def updateNoteInCache (updatedNote : Note) (s : AppState) : AppState :=
  cacheNotes (replaceById updatedNote (getCachedNotes s)) s

/-- `NotesService.updateNote`. Online: calls the API (`remote` is its
response; `none` = it threw, the error is rethrown with no state change) and
writes the authoritative response into the cache. Offline: FIRST appends an
UPDATE offline operation with payload `{ id, ...updates }`, THEN merges the
updates into the cached copy; when the id is absent it throws
(`Error("Note not found")`, result `none`) with the queue already grown.
Result `none` models a thrown error. -/
def updateNote (online : Bool) (remote : Option Note) (id : String)
    (updates : PartialNote) (opId : String) (now : Nat) (s : AppState) :
    Option Note × AppState :=
  if online then
    match remote with
    | some updatedNote => (some updatedNote, updateNoteInCache updatedNote s)
    | none => (none, s)
  else
    let s1 := addOfflineOperation
      ⟨opId, OpKind.UPDATE, updatePayload id updates, now⟩ s
    match updateFirstById id updates now (getCachedNotes s1) with
    | some (merged, newCache) => (some merged, cacheNotes newCache s1)
    | none => (none, s1)

/-- `NotesService.removeNoteFromCache`:
`cachedNotes.filter(note => note.id !== id)`. -/
def removeNoteFromCache (id : String) (s : AppState) : AppState :=
  cacheNotes ((getCachedNotes s).filter (fun note => note.id != id)) s

/-- The data payload `{ id }` of a DELETE offline operation. -/
def deletePayload (id : String) : PartialNote :=
  { PartialNote.empty with id := some id }

/-- `NotesService.deleteNote`. Online: calls the remote DELETE
(`remoteOk = false` models it throwing, in which case the error is rethrown
and the cache removal is NEVER REACHED), then removes from the cache.
Offline: appends a DELETE offline operation and removes from the cache.
The Bool result is `true` when the call returns normally, `false` when it
throws. -/
def deleteNote (online remoteOk : Bool) (id opId : String) (now : Nat)
    (s : AppState) : Bool × AppState :=
  if online then
    if remoteOk then (true, removeNoteFromCache id s)
    else (false, s)
  else
    let s1 := addOfflineOperation ⟨opId, OpKind.DELETE, deletePayload id, now⟩ s
    (true, removeNoteFromCache id s1)

/-- The `for (const operation of offlineOps)` loop of
`syncOfflineOperations`: visits the snapshot in order; each iteration
processes the operation (a no-op against the mock API) and THEN removes its
id from the stored queue. Returns the visit log (in visit order) and the
final state. -/
def syncLoop : List OfflineOperation → AppState →
    List OfflineOperation × AppState
  | [], s => ([], s)
  | operation :: rest, s =>
    let s1 := removeOfflineOperation operation.id s
    let r := syncLoop rest s1
    (operation :: r.1, r.2)

/-- `NotesService.syncOfflineOperations`. Returns early (no-op) when offline;
otherwise snapshots the queue and runs the drain loop. The visit log records
the processing order (the spy/log of the spec). -/
def syncOfflineOperations (online : Bool) (s : AppState) :
    List OfflineOperation × AppState :=
  if !online then ([], s)
  else syncLoop (getOfflineOperations s) s

/-! ## Social service (src/services/socialService) -/

/-- The like/unlike edit of `SocialService.likeNote` on one note: when the
user already likes the note, decrement `likes` (clamped at 0, which Nat
subtraction mirrors for `Math.max(0, likes - 1)`) and filter the user out of
`likedBy`; otherwise increment `likes` and push the user. -/
def likeNoteUpdate (note : Note) (userId : String) : Note :=
  if note.likedBy.contains userId then
    { note with likes := note.likes - 1,
                likedBy := note.likedBy.filter (fun id => id != userId) }
  else
    { note with likes := note.likes + 1,
                likedBy := note.likedBy ++ [userId] }

/-- The cache edit of `likeNote`: `findIndex` on the note id, apply the
like/unlike edit there, assign back; `none` when the id is absent. -/
def likeFirstById (noteId userId : String) : List Note → Option (List Note)
  | [] => none
  | note :: rest =>
    if note.id == noteId then some (likeNoteUpdate note userId :: rest)
    else
      match likeFirstById noteId userId rest with
      | some rest1 => some (note :: rest1)
      | none => none

/-- `SocialService.likeNote`. Reads the notes via the storage service, edits
the matching note, stores the collection back and returns `true`; when the
note is not found the thrown error is caught and `false` is returned with the
state unchanged. (The push notification and the social-interaction record
are external effects outside this state.) -/
def likeNote (noteId userId : String) (s : AppState) : Bool × AppState :=
  match likeFirstById noteId userId (getCachedNotes s) with
  | some newNotes => (true, cacheNotes newNotes s)
  | none => (false, s)

/-! ## Sample data used by concrete instances -/

/-- A sample note with a numbered id; timestamps 0, no likes. -/
def sampleNote (i : Nat) : Note :=
  ⟨"note_" ++ toString i, "Title", "Content", "Personal", false, false,
   0, 0, "1", 0, []⟩

/-- The field payload of the test note of `createTestNote`. -/
def sampleData : NoteData :=
  ⟨"Test Work Note", "This is a test note for Work category", "Work",
   false, false, 0, []⟩

/-- A sample offline operation with a numbered id. -/
def sampleOp (i : Nat) : OfflineOperation :=
  ⟨"offline_" ++ toString i, OpKind.CREATE, PartialNote.empty, i⟩

/-! ## Helper lemmas -/

theorem mem_upsertById (note : Note) (l : List Note) :
    note ∈ upsertById note l := by
  induction l with
  | nil => simp [upsertById]
  | cons n rest ih =>
    by_cases h : n.id == note.id <;> simp [upsertById, h, ih]

theorem upsertById_ne_nil (note : Note) (l : List Note) :
    upsertById note l ≠ [] := by
  cases l with
  | nil => simp [upsertById]
  | cons n rest => by_cases h : n.id == note.id <;> simp [upsertById, h]

theorem updateFirstById_eq_none_iff (id : String) (updates : PartialNote)
    (now : Nat) (l : List Note) :
    updateFirstById id updates now l = none ↔ ∀ note ∈ l, note.id ≠ id := by
  induction l with
  | nil => simp [updateFirstById]
  | cons note rest ih =>
    by_cases h : note.id = id
    · simp [updateFirstById, h]
    · have hb : (note.id == id) = false := by simpa using h
      cases hr : updateFirstById id updates now rest with
      | some p =>
        have hx : ¬ ∀ n ∈ rest, n.id ≠ id := by
          intro hall
          have hnone := ih.mpr hall
          rw [hr] at hnone
          exact Option.noConfusion hnone
        push_neg at hx
        obtain ⟨x, hxm, hxe⟩ := hx
        simp only [updateFirstById, hb, hr]
        simp [h]
        exact ⟨x, hxm, hxe⟩
      | none =>
        simp only [updateFirstById, hb, hr]
        simp [h]
        exact ih.mp hr

theorem updateFirstById_found (id : String) (updates : PartialNote)
    (now : Nat) (pre : List Note) (note : Note) (post : List Note)
    (hpre : ∀ n ∈ pre, n.id ≠ id) (hnote : note.id = id) :
    updateFirstById id updates now (pre ++ note :: post) =
      some (mergeUpdates note updates now,
            pre ++ mergeUpdates note updates now :: post) := by
  induction pre with
  | nil => simp [updateFirstById, hnote]
  | cons p rest ih =>
    have hp : p.id ≠ id := hpre p (by simp)
    have hrest : ∀ n ∈ rest, n.id ≠ id := fun n hn => hpre n (by simp [hn])
    have hb : (p.id == id) = false := by simpa using hp
    simp [updateFirstById, hb, ih hrest]

/-! ## Claim C1 -/

/-- Claim C1 counterexample: a note created while OFFLINE leaves the offline
queue EMPTY — `createNote` only enqueues the CREATE operation inside an
`isOnline()` guard, so no OfflineOperation of kind CREATE with the supplied
payload exists in the queue after an offline creation. -/
theorem createNote_offline_queue_empty_cex :
    ((createNote false sampleData "note_9" "offline_9" 5 "1"
        ⟨[], []⟩).2).queue = [] ∧
    ¬ ∃ op ∈ ((createNote false sampleData "note_9" "offline_9" 5 "1"
        ⟨[], []⟩).2).queue,
        op.kind = OpKind.CREATE ∧ op.data = sampleData.toPartial := by
  constructor
  · rfl
  · simp [createNote, addNoteToCache, cacheNotes, getCachedNotes, upsertById]

/-- Claim C1 (amended): after `createNote` the created note appears in the
result of any subsequent `getNotes()` call; a CREATE OfflineOperation with
the supplied payload is appended to the queue EXACTLY WHEN the device is
online — an offline creation records no offline operation. -/
theorem createNote_cache_and_queue (online : Bool) (noteData : NoteData)
    (noteId opId : String) (now : Nat) (userId : String) (s : AppState)
    (laterOnline : Bool) (laterFetch : Option (List Note)) :
    (createNote online noteData noteId opId now userId s).1 ∈
      (getNotes laterOnline laterFetch
        (createNote online noteData noteId opId now userId s).2).1 ∧
    (createNote online noteData noteId opId now userId s).2.queue =
      (if online then
        s.queue ++ [⟨opId, OpKind.CREATE, noteData.toPartial, now⟩]
       else s.queue) := by
  constructor
  · have hmem :
        (createNote online noteData noteId opId now userId s).1 ∈
          (createNote online noteData noteId opId now userId s).2.cache := by
      cases online <;>
        simpa [createNote, addNoteToCache, cacheNotes, getCachedNotes,
          addOfflineOperation] using mem_upsertById _ s.cache
    have hne :
        (createNote online noteData noteId opId now userId s).2.cache ≠ [] := by
      cases online <;>
        simpa [createNote, addNoteToCache, cacheNotes, getCachedNotes,
          addOfflineOperation] using upsertById_ne_nil _ s.cache
    have hlen :
        ((createNote online noteData noteId opId now userId s).2.cache.length
          == 0) = false := by
      simpa [List.length_eq_zero] using hne
    simp [getNotes, getCachedNotes, hlen, hmem]
  · cases online <;>
      simp [createNote, addNoteToCache, cacheNotes, getCachedNotes,
        addOfflineOperation]

/-! ## Claim C2 -/

/-- Claim C2: `getNotes` is cache-first — a non-empty cache is returned
verbatim with no state change whatever the connectivity; an empty cache
while offline yields the empty list with no state change; only an empty
cache while online fetches from the remote source, writes the fetched list
into the cache and returns it. -/
theorem getNotes_cache_first (online : Bool) (fetchResult : Option (List Note))
    (apiNotes : List Note) (s : AppState) :
    (s.cache ≠ [] → getNotes online fetchResult s = (s.cache, s)) ∧
    (s.cache = [] → getNotes false fetchResult s = ([], s)) ∧
    (s.cache = [] → getNotes true (some apiNotes) s =
      (apiNotes, { s with cache := apiNotes })) := by
  refine ⟨fun h => ?_, fun h => ?_, fun h => ?_⟩
  · have hlen : (s.cache.length == 0) = false := by
      simpa [List.length_eq_zero] using h
    simp [getNotes, getCachedNotes, hlen]
  · simp [getNotes, getCachedNotes, h]
  · simp [getNotes, getCachedNotes, cacheNotes, h]

/-- Claim C2 witness: with an empty cache and the device online, a fetch
returning one sample note populates the cache with it and returns it. -/
theorem getNotes_cache_first_witness :
    ((⟨[], []⟩ : AppState).cache = []) ∧
    getNotes true (some [sampleNote 1]) ⟨[], []⟩ =
      ([sampleNote 1], ⟨[sampleNote 1], []⟩) :=
  ⟨rfl, (getNotes_cache_first true (some [sampleNote 1]) [sampleNote 1]
      ⟨[], []⟩).2.2 rfl⟩

/-! ## Claim C4 -/

/-- Claim C4 counterexample: with a cached note whose id is outside the
fetched page, an online `getNotesPaginated` call REPLACES the cache with the
fetched page — the previously cached note is gone afterwards. -/
theorem getNotesPaginated_online_discards_cex :
    sampleNote 1 ∈ (⟨[sampleNote 1], []⟩ : AppState).cache ∧
    sampleNote 1 ∉
      ((getNotesPaginated true (some ⟨[sampleNote 2], true, 100⟩) 1 20
          ⟨[sampleNote 1], []⟩).2).cache := by
  constructor
  · simp
  · simp [getNotesPaginated, cacheNotes]
    decide

/-- Claim C4 (amended): an online `getNotesPaginated` call whose remote fetch
succeeds stores the fetched page AS THE WHOLE cached collection
(`cacheNotes` overwrites the single cache key); cached notes outside the
fetched page are discarded, not merged. -/
theorem getNotesPaginated_online_replaces (remote : PaginatedResult)
    (page limit : Nat) (s : AppState) :
    getNotesPaginated true (some remote) page limit s =
      (remote, { s with cache := remote.notes }) := by
  simp [getNotesPaginated, cacheNotes]

/-! ## Claim C5 -/

/-- Claim C5 counterexample: when the device is online and the remote
deletion attempt fails, `deleteNote` rethrows BEFORE reaching the cache
removal — the note is still returned by `getNotes()` afterwards. -/
theorem deleteNote_online_failure_cex :
    deleteNote true false "note_1" "op_1" 5 ⟨[sampleNote 1], []⟩ =
      (false, ⟨[sampleNote 1], []⟩) ∧
    ∃ n ∈ (getNotes true none
        (deleteNote true false "note_1" "op_1" 5
          ⟨[sampleNote 1], []⟩).2).1,
      n.id = "note_1" := by
  constructor
  · rfl
  · exact ⟨sampleNote 1, by decide, by decide⟩

/-- Claim C5 (amended): `deleteNote` removes every note with the given id
from the cache when the device is offline (also appending a DELETE offline
operation) and when it is online with the remote deletion succeeding; when
online and the remote deletion fails, the call throws and the state is
unchanged — the note is NOT removed locally. -/
theorem deleteNote_cache_removal (remoteOk : Bool) (id opId : String)
    (now : Nat) (s : AppState) (laterFetch : Option (List Note)) :
    ((deleteNote false remoteOk id opId now s).2.cache =
      s.cache.filter (fun n => n.id != id)) ∧
    ((deleteNote false remoteOk id opId now s).2.queue =
      s.queue ++ [⟨opId, OpKind.DELETE, deletePayload id, now⟩]) ∧
    (deleteNote true true id opId now s =
      (true, { s with cache := s.cache.filter (fun n => n.id != id) })) ∧
    (deleteNote true false id opId now s = (false, s)) ∧
    (∀ laterOnline : Bool,
      ∀ n ∈ (getNotes laterOnline laterFetch
          (deleteNote true true id opId now s).2).1.filter
            (fun n => n.id == id),
        n ∈ (laterFetch.getD [])) := by
  refine ⟨?_, ?_, ?_, ?_, ?_⟩
  · simp [deleteNote, removeNoteFromCache, cacheNotes, getCachedNotes,
      addOfflineOperation]
  · simp [deleteNote, removeNoteFromCache, cacheNotes, getCachedNotes,
      addOfflineOperation]
  · simp [deleteNote, removeNoteFromCache, cacheNotes, getCachedNotes]
  · simp [deleteNote]
  · intro laterOnline n hn
    have hstate :
        (deleteNote true true id opId now s).2 =
          { s with cache := s.cache.filter (fun n => n.id != id) } := by
      simp [deleteNote, removeNoteFromCache, cacheNotes, getCachedNotes]
    rw [hstate] at hn
    simp only [List.mem_filter] at hn
    obtain ⟨hmem, hid⟩ := hn
    by_cases hc : (s.cache.filter (fun n => n.id != id)).length == 0
    · cases laterOnline with
      | false =>
        simp [getNotes, getCachedNotes, List.mem_filter] at hmem
        obtain ⟨-, hne⟩ := hmem
        exact absurd (by simpa using hid) (by simpa using hne)
      | true =>
        cases laterFetch with
        | none =>
          simp [getNotes, getCachedNotes, hc, List.mem_filter] at hmem
          obtain ⟨-, hne⟩ := hmem
          exact absurd (by simpa using hid) (by simpa using hne)
        | some apiNotes =>
          simp [getNotes, getCachedNotes, hc] at hmem
          simpa using hmem
    · simp [getNotes, getCachedNotes, hc, List.mem_filter] at hmem
      obtain ⟨-, hne⟩ := hmem
      exact absurd (by simpa using hid) (by simpa using hne)

/-- Claim C5 (amended) witness: deleting a cached note offline removes it
from the cache and appends the DELETE offline operation. -/
theorem deleteNote_cache_removal_witness :
    ((deleteNote false false "note_1" "op_1" 5
        ⟨[sampleNote 1], []⟩).2.cache =
      [sampleNote 1].filter (fun n => n.id != "note_1")) ∧
    ((deleteNote false false "note_1" "op_1" 5
        ⟨[sampleNote 1], []⟩).2.queue =
      [] ++ [⟨"op_1", OpKind.DELETE, deletePayload "note_1", 5⟩]) :=
  ⟨(deleteNote_cache_removal false "note_1" "op_1" 5
      ⟨[sampleNote 1], []⟩ none).1,
   (deleteNote_cache_removal false "note_1" "op_1" 5
      ⟨[sampleNote 1], []⟩ none).2.1⟩

/-! ## Claim C10 -/

/-- Claim C10: an offline `updateNote` on an id absent from the cache throws
with the cache unchanged, but the UPDATE offline operation has ALREADY been
appended before the existence check — the failed call still grows the
queue by exactly that operation. -/
theorem updateNote_offline_notfound_grows_queue (remote : Option Note)
    (id : String) (updates : PartialNote) (opId : String) (now : Nat)
    (s : AppState) (habsent : ∀ note ∈ s.cache, note.id ≠ id) :
    updateNote false remote id updates opId now s =
      (none,
       ⟨s.cache,
        s.queue ++ [⟨opId, OpKind.UPDATE, updatePayload id updates, now⟩]⟩) := by
  have hn : updateFirstById id updates now s.cache = none :=
    (updateFirstById_eq_none_iff id updates now s.cache).mpr habsent
  simp [updateNote, addOfflineOperation, getCachedNotes, hn]

/-- Claim C10 witness: an offline update of a missing id on a one-note cache
leaves the cache as it was and appends one UPDATE operation. -/
theorem updateNote_offline_notfound_grows_queue_witness :
    (∀ note ∈ (⟨[sampleNote 1], []⟩ : AppState).cache,
      note.id ≠ "note_404") ∧
    updateNote false none "note_404" PartialNote.empty "op_7" 9
        ⟨[sampleNote 1], []⟩ =
      (none,
       ⟨[sampleNote 1],
        [] ++ [⟨"op_7", OpKind.UPDATE,
          updatePayload "note_404" PartialNote.empty, 9⟩]⟩) :=
  ⟨by decide,
   updateNote_offline_notfound_grows_queue none "note_404" PartialNote.empty
     "op_7" 9 ⟨[sampleNote 1], []⟩ (by decide)⟩

/-! ## Claim C6 -/

/-- Claim C6: an offline `updateNote` throws (Note not found) exactly when no
note with the id exists in the cache; when the id exists (first matching
entry), it merges the partial fields into the cached record, sets `updatedAt`
to the mutation time, stores the merged note back in place and returns it. -/
theorem updateNote_offline_spec (remote : Option Note) (id : String)
    (updates : PartialNote) (opId : String) (now : Nat) (s : AppState)
    (pre post : List Note) (note : Note) (queue : List OfflineOperation)
    (hpre : ∀ n ∈ pre, n.id ≠ id) (hnote : note.id = id) :
    ((updateNote false remote id updates opId now s).1 = none ↔
      ∀ n ∈ s.cache, n.id ≠ id) ∧
    (updateNote false remote id updates opId now
        ⟨pre ++ note :: post, queue⟩ =
      (some (mergeUpdates note updates now),
       ⟨pre ++ mergeUpdates note updates now :: post,
        queue ++ [⟨opId, OpKind.UPDATE, updatePayload id updates, now⟩]⟩)) ∧
    (mergeUpdates note updates now).updatedAt = now := by
  refine ⟨?_, ?_, rfl⟩
  · cases hu : updateFirstById id updates now s.cache with
    | some p =>
      have hne : ¬ ∀ n ∈ s.cache, n.id ≠ id := by
        intro hall
        have hx := (updateFirstById_eq_none_iff id updates now s.cache).mpr hall
        rw [hu] at hx
        exact Option.noConfusion hx
      push_neg at hne
      simp [updateNote, addOfflineOperation, getCachedNotes, cacheNotes, hu]
      exact hne
    | none =>
      simp [updateNote, addOfflineOperation, getCachedNotes, hu]
      exact (updateFirstById_eq_none_iff id updates now s.cache).mp hu
  · have hf := updateFirstById_found id updates now pre note post hpre hnote
    simp [updateNote, addOfflineOperation, getCachedNotes, cacheNotes, hf]

/-- Claim C6 witness: an offline title update of the only cached note merges
the title, sets `updatedAt` to the call time and returns the merged note. -/
theorem updateNote_offline_spec_witness :
    ((∀ n ∈ ([] : List Note), n.id ≠ "note_1") ∧
      (sampleNote 1).id = "note_1") ∧
    updateNote false none "note_1"
        { PartialNote.empty with title := some "New" } "op_2" 7
        ⟨[] ++ sampleNote 1 :: [], []⟩ =
      (some (mergeUpdates (sampleNote 1)
          { PartialNote.empty with title := some "New" } 7),
       ⟨[] ++ mergeUpdates (sampleNote 1)
            { PartialNote.empty with title := some "New" } 7 :: [],
        [] ++ [⟨"op_2", OpKind.UPDATE,
          updatePayload "note_1"
            { PartialNote.empty with title := some "New" }, 7⟩]⟩) :=
  ⟨⟨by decide, by decide⟩,
   (updateNote_offline_spec none "note_1"
      { PartialNote.empty with title := some "New" } "op_2" 7
      ⟨[] ++ sampleNote 1 :: [], []⟩ [] [] (sampleNote 1) []
      (by decide) (by decide)).2.1⟩

/-! ## Claim C7 -/

/-- A 25-note cache used for the pagination boundary instance of Claim C7. -/
def cache25 : AppState := ⟨(List.range 25).map sampleNote, []⟩

/-- Claim C7: offline pagination with 1-based pages slices the cache from
`(page-1)*pageSize` to `page*pageSize`, reports `hasMore` exactly when the
slice end is below the cache length and `total` as the cache length; a page
beyond the data yields no notes and `hasMore = false`; with a 25-note cache
and page size 20, page 1 yields 20 notes with more remaining and page 2
yields 5 notes with none remaining. -/
theorem getNotesPaginated_offline_slices (remote : Option PaginatedResult)
    (page limit : Nat) (s : AppState) (hpage : 1 ≤ page) :
    ((getNotesPaginated false remote page limit s).2 = s) ∧
    ((getNotesPaginated false remote page limit s).1.notes =
      (s.cache.drop ((page - 1) * limit)).take limit) ∧
    ((getNotesPaginated false remote page limit s).1.hasMore =
      decide ((page - 1) * limit + limit < s.cache.length)) ∧
    ((getNotesPaginated false remote page limit s).1.total =
      s.cache.length) ∧
    (s.cache.length ≤ (page - 1) * limit →
      (getNotesPaginated false remote page limit s).1.notes = [] ∧
      (getNotesPaginated false remote page limit s).1.hasMore = false) ∧
    ((getNotesPaginated false none 1 20 cache25).1.notes.length = 20 ∧
      (getNotesPaginated false none 1 20 cache25).1.hasMore = true) ∧
    ((getNotesPaginated false none 2 20 cache25).1.notes.length = 5 ∧
      (getNotesPaginated false none 2 20 cache25).1.hasMore = false) := by
  refine ⟨rfl, rfl, rfl, rfl, fun h => ⟨?_, ?_⟩, by decide, by decide⟩
  · have hd : s.cache.drop ((page - 1) * limit) = [] := by
      simp [List.drop_eq_nil_iff, h]
    simp [getNotesPaginated, paginateCache, getCachedNotes, hd]
  · have hh : ¬ ((page - 1) * limit + limit < s.cache.length) := by omega
    simpa [getNotesPaginated, paginateCache, getCachedNotes]
      using decide_eq_false hh

/-- Claim C7 witness: the slice characterization applied to page 2 of the
25-note cache with page size 20. -/
theorem getNotesPaginated_offline_slices_witness :
    1 ≤ 2 ∧
    (getNotesPaginated false none 2 20 cache25).1.total =
      cache25.cache.length :=
  ⟨by decide,
   (getNotesPaginated_offline_slices none 2 20 cache25 (by decide)).2.2.2.1⟩

/-! ## Claim C3 -/

theorem syncLoop_log (ops : List OfflineOperation) (s : AppState) :
    (syncLoop ops s).1 = ops := by
  induction ops generalizing s with
  | nil => rfl
  | cons op rest ih => simp [syncLoop, ih]

theorem syncLoop_cache (ops : List OfflineOperation) (s : AppState) :
    (syncLoop ops s).2.cache = s.cache := by
  induction ops generalizing s with
  | nil => rfl
  | cons op rest ih => simp [syncLoop, ih, removeOfflineOperation]

theorem syncLoop_queue (ops : List OfflineOperation) (s : AppState) :
    (syncLoop ops s).2.queue =
      s.queue.filter
        (fun op => !((ops.map OfflineOperation.id).contains op.id)) := by
  induction ops generalizing s with
  | nil => simp [syncLoop]
  | cons a rest ih =>
    simp only [syncLoop, ih, removeOfflineOperation, List.filter_filter]
    apply List.filter_congr
    intro x hx
    simp only [List.map_cons, List.contains_cons, Bool.not_or, bne]
    rw [Bool.and_comm]

theorem take_ids_filter_eq_drop {α β : Type} [BEq β] [LawfulBEq β] (f : α → β) :
    ∀ (k : Nat) (l : List α), (l.map f).Nodup →
      l.filter (fun a => !(((l.take k).map f).contains (f a))) = l.drop k := by
  intro k
  induction k with
  | zero =>
    intro l h
    simp
  | succ k ih =>
    intro l h
    cases l with
    | nil => simp
    | cons a l1 =>
      have hnd : (l1.map f).Nodup := (List.nodup_cons.mp (by simpa using h)).2
      have hnm : f a ∉ l1.map f := (List.nodup_cons.mp (by simpa using h)).1
      simp only [List.take_succ_cons, List.map_cons, List.drop_succ_cons]
      have hpa : (!((f a :: (l1.take k).map f).contains (f a))) = false := by
        simp
      rw [List.filter_cons_of_neg (by simp [hpa])]
      have hcongr :
          l1.filter
              (fun x => !((f a :: (l1.take k).map f).contains (f x))) =
            l1.filter (fun x => !(((l1.take k).map f).contains (f x))) := by
        apply List.filter_congr
        intro x hx
        have hne : (f x == f a) = false := by
          apply beq_eq_false_iff_ne.mpr
          intro hEq
          exact hnm (hEq ▸ List.mem_map_of_mem f hx)
        simp [hne]
      rw [hcongr, ih l1 hnd]

/-- Claim C3: `syncOfflineOperations` is a no-op while offline; while online
it visits the queued operations oldest-to-newest (the visit log equals the
queue in its enqueue order), leaves the cache untouched and the queue empty
afterwards; and, when the queued ids are distinct, after processing the
first k operations the stored queue is exactly the original queue with its
first k entries removed — each operation is removed only once it has been
processed. -/
theorem syncOfflineOperations_drain (s : AppState) :
    (syncOfflineOperations false s = ([], s)) ∧
    ((syncOfflineOperations true s).1 = s.queue) ∧
    ((syncOfflineOperations true s).2.cache = s.cache) ∧
    ((syncOfflineOperations true s).2.queue = []) ∧
    ((s.queue.map OfflineOperation.id).Nodup →
      ∀ k, (syncLoop (s.queue.take k) s).2.queue = s.queue.drop k) := by
  refine ⟨rfl, ?_, ?_, ?_, ?_⟩
  · simp [syncOfflineOperations, getOfflineOperations, syncLoop_log]
  · simp [syncOfflineOperations, getOfflineOperations, syncLoop_cache]
  · simp only [syncOfflineOperations, getOfflineOperations, Bool.not_true,
      Bool.false_eq_true, if_false, syncLoop_queue]
    apply List.filter_eq_nil_iff.mpr
    intro op hop
    have hmem : op.id ∈ s.queue.map OfflineOperation.id :=
      List.mem_map_of_mem OfflineOperation.id hop
    simp [List.contains, List.elem_eq_mem, hmem]
  · intro hnd k
    rw [syncLoop_queue]
    exact take_ids_filter_eq_drop OfflineOperation.id k s.queue hnd

/-- Claim C3 witness: a three-operation queue is visited in enqueue order,
drained to empty with the cache unchanged, and after one step only the first
operation has been removed. -/
theorem syncOfflineOperations_drain_witness :
    (syncOfflineOperations true
        ⟨[], [sampleOp 1, sampleOp 2, sampleOp 3]⟩).1 =
      [sampleOp 1, sampleOp 2, sampleOp 3] ∧
    (syncOfflineOperations true
        ⟨[], [sampleOp 1, sampleOp 2, sampleOp 3]⟩).2.queue = [] ∧
    (([sampleOp 1, sampleOp 2, sampleOp 3].map
        OfflineOperation.id).Nodup ∧
      (syncLoop ([sampleOp 1, sampleOp 2, sampleOp 3].take 1)
          ⟨[], [sampleOp 1, sampleOp 2, sampleOp 3]⟩).2.queue =
        [sampleOp 1, sampleOp 2, sampleOp 3].drop 1) :=
  ⟨(syncOfflineOperations_drain
      ⟨[], [sampleOp 1, sampleOp 2, sampleOp 3]⟩).2.1,
   (syncOfflineOperations_drain
      ⟨[], [sampleOp 1, sampleOp 2, sampleOp 3]⟩).2.2.2.1,
   by decide,
   (syncOfflineOperations_drain
      ⟨[], [sampleOp 1, sampleOp 2, sampleOp 3]⟩).2.2.2.2 (by decide) 1⟩

/-! ## Claim C8 -/

/-- A cached note whose updatedAt is 10 and createdAt is 0 — a healthy note
used to exhibit the Claim C8 failures. -/
def staleNote : Note :=
  ⟨"note_1", "T", "C", "Personal", false, false, 0, 10, "1", 0, []⟩

/-- A partial update whose only key is createdAt (a legal `Partial<Note>`). -/
def createdAtOverride : PartialNote :=
  { PartialNote.empty with createdAt := some 999 }

/-- Claim C8 counterexample: an offline `updateNote` issued at the same
timestamp as the previous update (now = 10 = updatedAt before) and carrying
`createdAt` among its partial fields succeeds, yet the resulting note has
`updatedAt = 10` (NOT strictly greater than before) and
`createdAt = 999 > updatedAt` (the invariant `updatedAt >= createdAt` is
broken). -/
theorem updateNote_timestamps_cex :
    (updateNote false none "note_1" createdAtOverride "op_1" 10
        ⟨[staleNote], []⟩).1 =
      some ⟨"note_1", "T", "C", "Personal", false, false, 999, 10, "1",
        0, []⟩ ∧
    staleNote.updatedAt = 10 ∧
    ¬ ((10 : Nat) > 10) ∧
    ¬ ((10 : Nat) ≥ (999 : Nat)) := by
  refine ⟨?_, rfl, by decide, by decide⟩
  rfl

/-- Claim C8 (amended): for offline `updateNote` calls whose partial fields
do not include `createdAt` and which occur strictly after the previous
`updatedAt` of the target note, the merged note advances `updatedAt`
strictly and preserves `updatedAt >= createdAt`; `createNote` establishes
`updatedAt = createdAt` on the new note. (The online path stores the remote
response verbatim, so the client code guarantees nothing about it; and a
partial update may legally carry `createdAt`, which the spread copies into
the cached record unchecked.) -/
theorem updateNote_advances_updatedAt (id : String) (updates : PartialNote)
    (opId : String) (now : Nat) (pre post : List Note) (note : Note)
    (queue : List OfflineOperation)
    (hpre : ∀ n ∈ pre, n.id ≠ id) (hnote : note.id = id)
    (hcreated : updates.createdAt = none) (hclock : note.updatedAt < now) :
    ((updateNote false none id updates opId now
        ⟨pre ++ note :: post, queue⟩).1 =
      some (mergeUpdates note updates now)) ∧
    note.updatedAt < (mergeUpdates note updates now).updatedAt ∧
    (note.createdAt ≤ note.updatedAt →
      (mergeUpdates note updates now).createdAt ≤
        (mergeUpdates note updates now).updatedAt) ∧
    (∀ (online : Bool) (d : NoteData) (nid oid uid : String) (t : Nat)
        (s : AppState),
      (createNote online d nid oid t uid s).1.createdAt =
        (createNote online d nid oid t uid s).1.updatedAt) := by
  refine ⟨?_, hclock, ?_, ?_⟩
  · have hf := updateFirstById_found id updates now pre note post hpre hnote
    simp [updateNote, addOfflineOperation, getCachedNotes, cacheNotes, hf]
  · intro hinv
    simp only [mergeUpdates, hcreated, Option.getD_none]
    omega
  · intro online d nid oid uid t s
    rfl

/-- Claim C8 (amended) witness: a title-only offline update at time 11 of a
note last updated at time 10 strictly advances `updatedAt`. -/
theorem updateNote_advances_updatedAt_witness :
    ((∀ n ∈ ([] : List Note), n.id ≠ "note_1") ∧
      staleNote.id = "note_1" ∧
      ({ PartialNote.empty with title := some "N" } :
        PartialNote).createdAt = none ∧
      staleNote.updatedAt < 11) ∧
    staleNote.updatedAt <
      (mergeUpdates staleNote
        { PartialNote.empty with title := some "N" } 11).updatedAt :=
  ⟨⟨by decide, by decide, by decide, by decide⟩,
   (updateNote_advances_updatedAt "note_1"
      { PartialNote.empty with title := some "N" } "op_3" 11 [] []
      staleNote [] (by decide) (by decide) (by decide) (by decide)).2.1⟩

/-! ## Claim C9 -/

theorem length_filter_bne {l : List String} {a : String}
    (hnd : l.Nodup) (hmem : a ∈ l) :
    (l.filter (fun x => x != a)).length + 1 = l.length := by
  induction l with
  | nil => cases hmem
  | cons b rest ih =>
    have hnd2 : rest.Nodup := (List.nodup_cons.mp hnd).2
    have hbnot : b ∉ rest := (List.nodup_cons.mp hnd).1
    rcases List.mem_cons.mp hmem with hba | hmem2
    · subst hba
      rw [List.filter_cons_of_neg (by simp)]
      have hall : rest.filter (fun x => x != a) = rest := by
        rw [List.filter_eq_self]
        intro x hx
        have hxa : x ≠ a := fun hEq => hbnot (hEq ▸ hx)
        simpa using hxa
      simp [hall]
    · have hba : b ≠ a := by
        intro hEq
        exact hbnot (hEq ▸ hmem2)
      rw [List.filter_cons_of_pos (by simpa using hba)]
      have hlen := ih hnd2 hmem2
      simp only [List.length_cons]
      omega

theorem likeNoteUpdate_invariant (note : Note) (userId : String)
    (h1 : note.likedBy.Nodup) (h2 : note.likes = note.likedBy.length) :
    (likeNoteUpdate note userId).likedBy.Nodup ∧
    (likeNoteUpdate note userId).likes =
      (likeNoteUpdate note userId).likedBy.length := by
  by_cases hc : note.likedBy.contains userId = true
  · have hmem : userId ∈ note.likedBy := by
      simpa [List.contains, List.elem_eq_mem] using hc
    have hlen := length_filter_bne h1 hmem
    constructor
    · simp only [likeNoteUpdate]
      rw [if_pos hc]
      exact h1.filter _
    · simp only [likeNoteUpdate]
      rw [if_pos hc]
      show note.likes - 1 =
        (note.likedBy.filter (fun id => id != userId)).length
      omega
  · have hmem : userId ∉ note.likedBy := by
      simpa [List.contains, List.elem_eq_mem] using hc
    constructor
    · simp only [likeNoteUpdate]
      rw [if_neg hc]
      show (note.likedBy ++ [userId]).Nodup
      rw [List.nodup_append]
      refine ⟨h1, List.nodup_singleton _, ?_⟩
      intro x hx hx2
      rw [List.mem_singleton] at hx2
      subst hx2
      exact hmem hx
    · simp only [likeNoteUpdate]
      rw [if_neg hc]
      show note.likes + 1 = (note.likedBy ++ [userId]).length
      simp [h2]

theorem likeFirstById_invariant (noteId userId : String) :
    ∀ (l newl : List Note), likeFirstById noteId userId l = some newl →
      (∀ n ∈ l, n.likedBy.Nodup ∧ n.likes = n.likedBy.length) →
      ∀ n ∈ newl, n.likedBy.Nodup ∧ n.likes = n.likedBy.length := by
  intro l
  induction l with
  | nil => intro newl h; simp [likeFirstById] at h
  | cons note rest ih =>
    intro newl h hall
    by_cases hid : (note.id == noteId) = true
    · rw [likeFirstById, if_pos hid, Option.some.injEq] at h
      subst h
      intro n hn
      rcases List.mem_cons.mp hn with h1 | h2
      · subst h1
        exact likeNoteUpdate_invariant note userId
          (hall note (by simp)).1 (hall note (by simp)).2
      · exact hall n (by simp [h2])
    · rw [likeFirstById, if_neg hid] at h
      cases hr : likeFirstById noteId userId rest with
      | some rest1 =>
        rw [hr, Option.some.injEq] at h
        subst h
        intro n hn
        rcases List.mem_cons.mp hn with h1 | h2
        · exact h1 ▸ hall note (by simp)
        · exact ih rest1 hr (fun m hm => hall m (by simp [hm])) n h2
      | none => rw [hr] at h; exact Option.noConfusion h

/-- Claim C9: a `likeNote` call — whether it likes, unlikes, or finds no
matching note — preserves the invariant that `likedBy` holds no duplicate
user ids and `likes` equals `likedBy.length`, for every note in the cache. -/
theorem likeNote_preserves_like_invariant (noteId userId : String)
    (s : AppState)
    (h : ∀ n ∈ s.cache, n.likedBy.Nodup ∧ n.likes = n.likedBy.length) :
    ∀ n ∈ (likeNote noteId userId s).2.cache,
      n.likedBy.Nodup ∧ n.likes = n.likedBy.length := by
  cases hr : likeFirstById noteId userId (getCachedNotes s) with
  | some newNotes =>
    simp only [likeNote, hr, cacheNotes]
    exact likeFirstById_invariant noteId userId s.cache newNotes hr h
  | none =>
    simp only [likeNote, hr]
    exact h

/-- Claim C9 witness: liking a note whose `likedBy` is `[u1]` with `likes = 1`
by a second user keeps the invariant. -/
theorem likeNote_preserves_like_invariant_witness :
    (∀ n ∈ (⟨[⟨"note_1", "T", "C", "Personal", false, true, 0, 0, "1",
        1, ["u1"]⟩], []⟩ : AppState).cache,
      n.likedBy.Nodup ∧ n.likes = n.likedBy.length) ∧
    (∀ n ∈ (likeNote "note_1" "u2"
        ⟨[⟨"note_1", "T", "C", "Personal", false, true, 0, 0, "1",
          1, ["u1"]⟩], []⟩).2.cache,
      n.likedBy.Nodup ∧ n.likes = n.likedBy.length) :=
  ⟨by decide,
   likeNote_preserves_like_invariant "note_1" "u2"
     ⟨[⟨"note_1", "T", "C", "Personal", false, true, 0, 0, "1",
       1, ["u1"]⟩], []⟩ (by decide)⟩

end NotesApp
